import Mathlib

/-!
Verification of mkfs.vmufat (mkfs.vmufat.c) against its specification.

The C source is shallowly embedded below.  Machine integers are modelled as
`Nat`/`Int` with explicit reductions modulo `2^32` wherever the C program
performs `unsigned int` arithmetic (the fields of `struct vmuparam` are
`unsigned int`), and with mathematical `Int` for the signed `int`/`off_t`
quantities (C signed overflow is undefined behaviour, so the exact-integer
model is faithful to every defined execution).  512-byte sectors are
addressed by index; the FAT is modelled word-wise (the C code accesses it
through a `uint16_t *`), the root block byte-wise (the C code accesses it
through both `char *` and `uint16_t *`).
-/

set_option maxRecDepth 4000

/-- `struct vmuparam` from mkfs.vmufat.c: six `unsigned int` fields. -/
structure vmuparam where
  size      : Nat
  rootblock : Nat
  fatstart  : Nat
  fatsize   : Nat
  dirstart  : Nat
  dirsize   : Nat
deriving DecidableEq, Repr

/-- `2^32`, the modulus of C `unsigned int` arithmetic. -/
def MOD32 : Nat := 4294967296

/-- Fuel-indexed version of the loop in `_round_down`:
`while (y > x) y = y >> 1; return y;`.
Starting from `y = 0x80000000`, 32 iterations always reach the loop's exit
condition (31 halvings take `y` to 1 and one more to 0, and the loop stops
as soon as `y ≤ x`), so fuel 32 in `_round_down` below computes exactly the
C loop's result. -/
def roundLoopF : Nat → Nat → Nat → Nat
  | 0, _, y => y
  | f + 1, x, y => if x < y then roundLoopF f x (y / 2) else y

/-- `_round_down` from mkfs.vmufat.c (lines 129-135): round an
`unsigned int` down to a power of two, by halving `y = 0x80000000` until
`y ≤ x`. -/
def _round_down (x : Nat) : Nat := roundLoopF 32 x 2147483648

/-- `calculate_vmuparams` from mkfs.vmufat.c (lines 137-182), with the
`fstat` of the device abstracted into the `devSize` argument (the value of
`devstat.st_size`, an `off_t`).  `none` models the error return.
`blocknum * 512` is computed in exact integers: in C this product is an
`int` multiplication whose overflow is undefined behaviour, so every
defined execution agrees with this model.  The `size >> BLOCKSHIFT` on the
signed `off_t` is an arithmetic shift, i.e. floor division by 512; its
conversion to the `unsigned int` parameter of `_round_down` reduces modulo
`2^32`, and all subsequent arithmetic is `unsigned int` arithmetic
(modulo `2^32`). -/
def calculate_vmuparams (devSize blocknum : Int) : Option vmuparam :=
  if devSize < 512 * 4 ∨ (0 < blocknum ∧ blocknum < 4) then none
  else if devSize < blocknum * 512 then none
  else
    let size : Int := if blocknum ≠ 0 then blocknum * 512 else devSize
    let sectors : Nat := ((Int.fdiv size 512) % (4294967296 : Int)).toNat
    let psize : Nat := _round_down sectors * 512 % MOD32
    let v : Nat := psize / 512
    let rootblock : Nat := (v + MOD32 - 1) % MOD32
    let fatstart : Nat := (rootblock + MOD32 - 1) % MOD32
    let fatsize : Nat := 2 * v % MOD32 / 512
    let dirstart : Nat := (fatstart + MOD32 - fatsize) % MOD32
    let dirsize : Nat := (v + MOD32 - (1 + fatsize)) % MOD32 / 17
    some ⟨psize, rootblock, fatstart, fatsize, dirstart, dirsize⟩

/-- The geometry the planner produces for a power-of-two sector count `V`
in the range where no 32-bit truncation occurs: the formulas of spec §3. -/
def geomOf (V : Nat) : vmuparam :=
  { size := V * 512
    rootblock := V - 1
    fatstart := V - 2
    fatsize := 2 * V / 512
    dirstart := V - 2 - 2 * V / 512
    dirsize := (V - 1 - 2 * V / 512) / 17 }

/-- Spec invariant I1: `size mod 512 = 0` and `size/512` is a power of two
`≥ 4`. -/
def I1geom (p : vmuparam) : Prop :=
  p.size % 512 = 0 ∧ ∃ m : Nat, p.size / 512 = 2 ^ m ∧ 4 ≤ 2 ^ m

/-- Claim C2's property at a single raw size `S` (no requested block
count): the planner succeeds only with `size/512` the greatest power of two
not exceeding `floor(S/512)`. -/
def C2at (S : Int) : Prop :=
  ∀ p, calculate_vmuparams S 0 = some p →
    (∃ m : Nat, p.size / 512 = 2 ^ m) ∧
    p.size / 512 ≤ (Int.fdiv S 512).toNat ∧
    (Int.fdiv S 512).toNat < 2 * (p.size / 512)

theorem roundLoopF_spec : ∀ (n f x : Nat), n < f → 1 ≤ x → x < 2 * 2 ^ n →
    ∃ m : Nat, roundLoopF f x (2 ^ n) = 2 ^ m ∧ 2 ^ m ≤ x ∧ x < 2 * 2 ^ m := by
  intro n
  induction n with
  | zero =>
    intro f x hf hx hx2
    obtain ⟨f, rfl⟩ : ∃ g, f = g + 1 := ⟨f - 1, by omega⟩
    refine ⟨0, ?_, by simpa using hx, by simpa using hx2⟩
    simp [roundLoopF, Nat.lt_one_iff]
    omega
  | succ n ih =>
    intro f x hf hx hx2
    obtain ⟨f, rfl⟩ : ∃ g, f = g + 1 := ⟨f - 1, by omega⟩
    by_cases hcase : x < 2 ^ (n + 1)
    · have hhalf : (2 : Nat) ^ (n + 1) / 2 = 2 ^ n := by
        rw [pow_succ]; omega
      have := ih f x (by omega) hx (by rw [pow_succ] at hcase; omega)
      simpa [roundLoopF, hcase, hhalf] using this
    · exact ⟨n + 1, by simp [roundLoopF, hcase], by omega, hx2⟩

theorem round_down_spec (x : Nat) (h1 : 1 ≤ x) (h2 : x < 4294967296) :
    ∃ m : Nat, _round_down x = 2 ^ m ∧ 2 ^ m ≤ x ∧ x < 2 * 2 ^ m := by
  have h := roundLoopF_spec 31 32 x (by omega) h1 (by norm_num at h2 ⊢; omega)
  simpa [_round_down, show (2 : Nat) ^ 31 = 2147483648 by norm_num] using h

/-- Claim C1 (amended): for every power-of-two sector count `V = 2^k` with
`2 ≤ k ≤ 22`, fed to the planner as device size `V * 512` octets with no
requested block count, `calculate_vmuparams` succeeds and returns the
geometry `rootblock = V-1`, `fatstart = V-2`, `fatsize = 2V/512`,
`dirstart = fatstart - fatsize`, `dirsize = (V-1-fatsize)/17`, with
`dirsize ≤ dirstart` (i.e. `dirstart - dirsize ≥ 0`).  The upper bound
`k ≤ 22` is forced: for `V = 2^23` (a 4 GiB device) the `unsigned int`
expression `_round_down(size >> 9) << 9` overflows to 0 (see the
counterexample theorem). -/
theorem c1_geometry_pow2 : ∀ k : Nat, 2 ≤ k → k ≤ 22 →
    calculate_vmuparams ((2 ^ k : Int) * 512) 0 = some (geomOf (2 ^ k)) ∧
    (geomOf (2 ^ k)).rootblock = 2 ^ k - 1 ∧
    (geomOf (2 ^ k)).fatstart = 2 ^ k - 2 ∧
    (geomOf (2 ^ k)).fatsize = 2 * 2 ^ k / 512 ∧
    (geomOf (2 ^ k)).dirstart = (geomOf (2 ^ k)).fatstart - (geomOf (2 ^ k)).fatsize ∧
    (geomOf (2 ^ k)).dirsize = (2 ^ k - 1 - (geomOf (2 ^ k)).fatsize) / 17 ∧
    (geomOf (2 ^ k)).dirsize ≤ (geomOf (2 ^ k)).dirstart := by
  intro k h1 h2
  interval_cases k <;> exact ⟨by decide, by decide, by decide, by decide, by decide, by decide, by decide⟩

/-- Witness for C1's amended theorem at `k = 8` (`V = 256` sectors). -/
theorem c1_geometry_pow2_witness :
    calculate_vmuparams ((2 ^ 8 : Int) * 512) 0 = some (geomOf (2 ^ 8)) ∧
    (geomOf (2 ^ 8)).rootblock = 2 ^ 8 - 1 ∧
    (geomOf (2 ^ 8)).fatstart = 2 ^ 8 - 2 ∧
    (geomOf (2 ^ 8)).fatsize = 2 * 2 ^ 8 / 512 ∧
    (geomOf (2 ^ 8)).dirstart = (geomOf (2 ^ 8)).fatstart - (geomOf (2 ^ 8)).fatsize ∧
    (geomOf (2 ^ 8)).dirsize = (2 ^ 8 - 1 - (geomOf (2 ^ 8)).fatsize) / 17 ∧
    (geomOf (2 ^ 8)).dirsize ≤ (geomOf (2 ^ 8)).dirstart :=
  c1_geometry_pow2 8 (by decide) (by decide)

/-- Counterexample to claim C1 as stated: at the power-of-two sector count
`V = 2^23` (device size `2^32` octets, a 4 GiB device), the planner
succeeds but `rootblock = 0xFFFFFFFF ≠ V - 1`: the `unsigned int`
computation `_round_down(size >> 9) << 9` wraps to 0, so the whole
geometry collapses.  Hence "for every power-of-two sector count V ≥ 4"
is false; it holds exactly up to `V = 2^22`. -/
theorem c1_counterexample :
    (calculate_vmuparams ((2 ^ 23 : Int) * 512) 0).map vmuparam.rootblock =
      some 4294967295 ∧ (4294967295 : Nat) ≠ 2 ^ 23 - 1 := by
  constructor
  · decide
  · decide

/-- Claim C2 (amended): for every raw device size `S` with
`4·512 ≤ S < 2^32` and no requested block count, the planner's `size/512`
is the largest power of two not exceeding `floor(S/512)`.  The upper
bound `S < 2^32` is forced: at `S = 2^32` the `unsigned int` shift
`_round_down(size >> 9) << 9` wraps to 0 (see the counterexample). -/
theorem c2_round_down_largest : ∀ S : Int, 2048 ≤ S → S < 4294967296 → C2at S := by
  intro S h1 h2 p hp
  simp only [calculate_vmuparams, MOD32] at hp
  rw [if_neg (by omega)] at hp
  rw [if_neg (by omega)] at hp
  simp only [ne_eq, not_true_eq_false, if_false, Option.some_inj] at hp
  have hfd : Int.fdiv S 512 = S / 512 := Int.fdiv_eq_ediv S (by omega)
  rw [hfd] at hp
  have hx1 : (4 : Int) ≤ S / 512 := by omega
  have hx2 : S / 512 < 8388608 := by omega
  have hmod : S / 512 % (4294967296 : Int) = S / 512 := by omega
  rw [hmod] at hp
  obtain ⟨m, hrd, hle, hlt⟩ := round_down_spec (S / 512).toNat (by omega) (by omega)
  have hm23 : m < 23 := by
    by_contra hcon
    have : 2 ^ 23 ≤ 2 ^ m := Nat.pow_le_pow_right (by norm_num) (by omega)
    omega
  have hsmall : 2 ^ m * 512 < 4294967296 := by
    have : 2 ^ m ≤ 2 ^ 22 := Nat.pow_le_pow_right (by norm_num) (by omega)
    omega
  subst hp
  rw [hfd]
  refine ⟨⟨m, ?_⟩, ?_, ?_⟩ <;> dsimp only <;> rw [hrd] <;> omega

/-- Witness for C2's amended theorem at `S = 200000` octets:
`floor(S/512) = 390`, and the planner picks `size/512 = 256`. -/
theorem c2_round_down_largest_witness : C2at 200000 :=
  c2_round_down_largest 200000 (by omega) (by omega)

/-- Counterexample to claim C2 as stated: at raw size `S = 2^32` (4 GiB)
the planner returns `size = 0`, so `size/512 = 0` is not the largest power
of two `≤ floor(S/512) = 2^23`: the `unsigned int` product
`_round_down(2^23) * 512` wraps to 0. -/
theorem c2_counterexample : ¬ C2at 4294967296 :=
  fun h =>
    absurd ((h ⟨0, 4294967295, 4294967294, 0, 4294967294, 252645135⟩ (by decide)).2.2)
      (by decide)

/-- Claim C9: any negative requested block count `N` on a device of raw
size `S ≥ 4·512` octets passes both guards of `calculate_vmuparams` (the
"too small" guard only tests `0 < N < 4`, and `S < N·512` is false since
`N·512 < 0 ≤ S` in signed arithmetic), `N` is treated as nonzero, and the
negative `N·512` becomes the effective size; the resulting geometry can
violate the documented invariant I1, as at `N = -1, S = 2048`, where
`size = 0` (so `size/512` is not a power of two `≥ 4`). -/
theorem c9_negative_blockcount :
    (∀ N S : Int, N < 0 → 2048 ≤ S → (calculate_vmuparams S N).isSome = true) ∧
    (∃ p, calculate_vmuparams 2048 (-1) = some p ∧ ¬ I1geom p) := by
  constructor
  · intro N S hN hS
    simp only [calculate_vmuparams]
    rw [if_neg (by omega)]
    rw [if_neg (by omega)]
    simp
  · refine ⟨⟨0, 4294967295, 4294967294, 0, 4294967294, 252645135⟩, by decide, ?_⟩
    rintro ⟨-, m, hm, -⟩
    have hpos : 0 < 2 ^ m := pow_pos (by norm_num) m
    simp only at hm
    omega

/-- Witness for C9's theorem: the universally quantified part applied at
`N = -7`, `S = 4096`. -/
theorem c9_negative_blockcount_witness :
    (calculate_vmuparams 4096 (-7)).isSome = true :=
  c9_negative_blockcount.1 (-7) 4096 (by omega) (by omega)

/-- The fields of `struct tm` that `_fill_root_block` reads (all C `int`;
`gmtime` only produces non-negative values for dates from 1900 on). -/
structure Tm where
  tm_year : Nat
  tm_mon  : Nat
  tm_mday : Nat
  tm_hour : Nat
  tm_min  : Nat
  tm_sec  : Nat
  tm_wday : Nat
deriving DecidableEq

/-- `_i2bcd` from mkfs.vmufat.c (lines 184-193): two-digit BCD packing,
`(i/10) << 4 + i % 10`, truncated to the `char` return type. -/
def _i2bcd (i : Nat) : Nat := (i / 10 * 16 + i % 10) % 256

/-- Store one octet in a byte-indexed 512-octet buffer. -/
def putByte (buf : Nat → Nat) (off v : Nat) : Nat → Nat :=
  fun j => if j = off then v else buf j

/-- Store a 16-bit value little-endian at word offset `w` (octets `2w` and
`2w+1`), as the `uint16_t` store through `__cpu_to_le16` does on disk. -/
def putWordLE (buf : Nat → Nat) (w v : Nat) : Nat → Nat :=
  putByte (putByte buf (2 * w) (v % 256)) (2 * w + 1) (v / 256 % 256)

/-- Read back a 16-bit little-endian word at word offset `w`. -/
def readWordLE (buf : Nat → Nat) (w : Nat) : Nat :=
  buf (2 * w) + 256 * buf (2 * w + 1)

/-- `_fill_root_block` from mkfs.vmufat.c (lines 265-308).  `t?` is the
result of `gmtime`: on `NULL` the function returns right after the
signature fill, writing neither timestamp nor geometry words. -/
def _fill_root_block (t? : Option Tm) (p : vmuparam) (buf : Nat → Nat) : Nat → Nat :=
  let buf1 : Nat → Nat := fun j => if j < 16 then 0x55 else buf j
  match t? with
  | none => buf1
  | some t =>
    let buf2 := putByte buf1 0x30 (_i2bcd (19 + t.tm_year / 100))
    let buf3 := putByte buf2 0x31 (_i2bcd (t.tm_year - t.tm_year / 100 * 100))
    let buf4 := putByte buf3 0x32 (_i2bcd (t.tm_mon + 1))
    let buf5 := putByte buf4 0x33 (_i2bcd t.tm_mday)
    let buf6 := putByte buf5 0x34 (_i2bcd t.tm_hour)
    let buf7 := putByte buf6 0x35 (_i2bcd t.tm_min)
    let buf8 := putByte buf7 0x36 (_i2bcd t.tm_sec)
    let buf9 := putByte buf8 0x37 (_i2bcd t.tm_wday)
    let w0 := putWordLE buf9 0x20 p.rootblock
    let w1 := putWordLE w0 0x22 p.rootblock
    let w2 := putWordLE w1 0x23 p.fatstart
    let w3 := putWordLE w2 0x24 p.fatsize
    let w4 := putWordLE w3 0x25 p.dirstart
    let w5 := putWordLE w4 0x26 p.dirsize
    putWordLE w5 0x27 (p.dirsize * 8)

/-- `mark_root_block` from mkfs.vmufat.c (lines 310-341) as a transformer
of the byte-level device (sector index → octet offset → octet): a zeroed
512-octet buffer is filled by `_fill_root_block` and written at sector
`rootblock`. -/
def mark_root_block (t? : Option Tm) (p : vmuparam) (bd : Nat → Nat → Nat) :
    Nat → Nat → Nat :=
  fun sec => if sec = p.rootblock then _fill_root_block t? p (fun _ => 0) else bd sec


/-- The byte at offset `i` of the root block as `_fill_root_block` leaves
it on a zeroed buffer (latest store wins, so the decision tree lists the
stores in reverse program order).  `fill_root_block_eval` below proves this
equal, definitionally, to the embedded `_fill_root_block`. -/
def rootByte (p : vmuparam) (t : Tm) (i : Nat) : Nat :=
  if i = 2 * 39 + 1 then p.dirsize * 8 / 256 % 256
  else if i = 2 * 39 then p.dirsize * 8 % 256
  else if i = 2 * 38 + 1 then p.dirsize / 256 % 256
  else if i = 2 * 38 then p.dirsize % 256
  else if i = 2 * 37 + 1 then p.dirstart / 256 % 256
  else if i = 2 * 37 then p.dirstart % 256
  else if i = 2 * 36 + 1 then p.fatsize / 256 % 256
  else if i = 2 * 36 then p.fatsize % 256
  else if i = 2 * 35 + 1 then p.fatstart / 256 % 256
  else if i = 2 * 35 then p.fatstart % 256
  else if i = 2 * 34 + 1 then p.rootblock / 256 % 256
  else if i = 2 * 34 then p.rootblock % 256
  else if i = 2 * 32 + 1 then p.rootblock / 256 % 256
  else if i = 2 * 32 then p.rootblock % 256
  else if i = 55 then _i2bcd t.tm_wday
  else if i = 54 then _i2bcd t.tm_sec
  else if i = 53 then _i2bcd t.tm_min
  else if i = 52 then _i2bcd t.tm_hour
  else if i = 51 then _i2bcd t.tm_mday
  else if i = 50 then _i2bcd (t.tm_mon + 1)
  else if i = 49 then _i2bcd (t.tm_year - t.tm_year / 100 * 100)
  else if i = 48 then _i2bcd (19 + t.tm_year / 100)
  else if i < 16 then 85
  else 0

theorem fill_root_block_eval (p : vmuparam) (t : Tm) (i : Nat) :
    _fill_root_block (some t) p (fun _ => 0) i = rootByte p t i := rfl

theorem rootByte_signature (p : vmuparam) (t : Tm) (i : Nat) (hi : i < 16) :
    rootByte p t i = 0x55 := by
  delta rootByte
  rw [if_neg (by omega : ¬ (i = 2 * 39 + 1))]
  rw [if_neg (by omega : ¬ (i = 2 * 39))]
  rw [if_neg (by omega : ¬ (i = 2 * 38 + 1))]
  rw [if_neg (by omega : ¬ (i = 2 * 38))]
  rw [if_neg (by omega : ¬ (i = 2 * 37 + 1))]
  rw [if_neg (by omega : ¬ (i = 2 * 37))]
  rw [if_neg (by omega : ¬ (i = 2 * 36 + 1))]
  rw [if_neg (by omega : ¬ (i = 2 * 36))]
  rw [if_neg (by omega : ¬ (i = 2 * 35 + 1))]
  rw [if_neg (by omega : ¬ (i = 2 * 35))]
  rw [if_neg (by omega : ¬ (i = 2 * 34 + 1))]
  rw [if_neg (by omega : ¬ (i = 2 * 34))]
  rw [if_neg (by omega : ¬ (i = 2 * 32 + 1))]
  rw [if_neg (by omega : ¬ (i = 2 * 32))]
  rw [if_neg (by omega : ¬ (i = 55))]
  rw [if_neg (by omega : ¬ (i = 54))]
  rw [if_neg (by omega : ¬ (i = 53))]
  rw [if_neg (by omega : ¬ (i = 52))]
  rw [if_neg (by omega : ¬ (i = 51))]
  rw [if_neg (by omega : ¬ (i = 50))]
  rw [if_neg (by omega : ¬ (i = 49))]
  rw [if_neg (by omega : ¬ (i = 48))]
  rw [if_pos hi]

theorem rootByte_unwritten (p : vmuparam) (t : Tm) (i : Nat) (h16 : 16 ≤ i)
    (hts : i < 0x30 ∨ 0x38 ≤ i) (hw : i < 0x40 ∨ i = 0x42 ∨ i = 0x43 ∨ 0x50 ≤ i) :
    rootByte p t i = 0 := by
  delta rootByte
  rw [if_neg (by omega : ¬ (i = 2 * 39 + 1))]
  rw [if_neg (by omega : ¬ (i = 2 * 39))]
  rw [if_neg (by omega : ¬ (i = 2 * 38 + 1))]
  rw [if_neg (by omega : ¬ (i = 2 * 38))]
  rw [if_neg (by omega : ¬ (i = 2 * 37 + 1))]
  rw [if_neg (by omega : ¬ (i = 2 * 37))]
  rw [if_neg (by omega : ¬ (i = 2 * 36 + 1))]
  rw [if_neg (by omega : ¬ (i = 2 * 36))]
  rw [if_neg (by omega : ¬ (i = 2 * 35 + 1))]
  rw [if_neg (by omega : ¬ (i = 2 * 35))]
  rw [if_neg (by omega : ¬ (i = 2 * 34 + 1))]
  rw [if_neg (by omega : ¬ (i = 2 * 34))]
  rw [if_neg (by omega : ¬ (i = 2 * 32 + 1))]
  rw [if_neg (by omega : ¬ (i = 2 * 32))]
  rw [if_neg (by omega : ¬ (i = 55))]
  rw [if_neg (by omega : ¬ (i = 54))]
  rw [if_neg (by omega : ¬ (i = 53))]
  rw [if_neg (by omega : ¬ (i = 52))]
  rw [if_neg (by omega : ¬ (i = 51))]
  rw [if_neg (by omega : ¬ (i = 50))]
  rw [if_neg (by omega : ¬ (i = 49))]
  rw [if_neg (by omega : ¬ (i = 48))]
  rw [if_neg (by omega : ¬ (i < 16))]

/-- Claim C3: after `mark_root_block` runs (with `gmtime` succeeding), the
sector at index `rootblock` holds: octets 0..15 all `0x55`; the eight BCD
UTC timestamp octets at 0x30..0x37; little-endian 16-bit words at word
offsets 0x20, 0x22, 0x23, 0x24, 0x25, 0x26, 0x27 equal to rootblock,
rootblock, fatstart, fatsize, dirstart, dirsize, dirsize*8; word 0x21
(octets 0x42-0x43) is zero, never written; and every other octet is zero.
The bounds `< 65536` say the stored values fit a 16-bit word, which the
claim's "the words equal the fields" presupposes. -/
theorem c3_root_block_layout (p : vmuparam) (t : Tm) (bd : Nat → Nat → Nat)
    (h1 : p.rootblock < 65536) (h2 : p.fatstart < 65536) (h3 : p.fatsize < 65536)
    (h4 : p.dirstart < 65536) (h5 : p.dirsize * 8 < 65536) :
    (∀ i, i < 16 → mark_root_block (some t) p bd p.rootblock i = 0x55) ∧
    mark_root_block (some t) p bd p.rootblock 0x30 = _i2bcd (19 + t.tm_year / 100) ∧
    mark_root_block (some t) p bd p.rootblock 0x31 = _i2bcd (t.tm_year - t.tm_year / 100 * 100) ∧
    mark_root_block (some t) p bd p.rootblock 0x32 = _i2bcd (t.tm_mon + 1) ∧
    mark_root_block (some t) p bd p.rootblock 0x33 = _i2bcd t.tm_mday ∧
    mark_root_block (some t) p bd p.rootblock 0x34 = _i2bcd t.tm_hour ∧
    mark_root_block (some t) p bd p.rootblock 0x35 = _i2bcd t.tm_min ∧
    mark_root_block (some t) p bd p.rootblock 0x36 = _i2bcd t.tm_sec ∧
    mark_root_block (some t) p bd p.rootblock 0x37 = _i2bcd t.tm_wday ∧
    readWordLE (mark_root_block (some t) p bd p.rootblock) 0x20 = p.rootblock ∧
    readWordLE (mark_root_block (some t) p bd p.rootblock) 0x22 = p.rootblock ∧
    readWordLE (mark_root_block (some t) p bd p.rootblock) 0x23 = p.fatstart ∧
    readWordLE (mark_root_block (some t) p bd p.rootblock) 0x24 = p.fatsize ∧
    readWordLE (mark_root_block (some t) p bd p.rootblock) 0x25 = p.dirstart ∧
    readWordLE (mark_root_block (some t) p bd p.rootblock) 0x26 = p.dirsize ∧
    readWordLE (mark_root_block (some t) p bd p.rootblock) 0x27 = p.dirsize * 8 ∧
    readWordLE (mark_root_block (some t) p bd p.rootblock) 0x21 = 0 ∧
    (∀ i, 16 ≤ i → i < 512 → (i < 0x30 ∨ 0x38 ≤ i) →
      (i < 0x40 ∨ i = 0x42 ∨ i = 0x43 ∨ 0x50 ≤ i) →
      mark_root_block (some t) p bd p.rootblock i = 0) := by
  have hfun : mark_root_block (some t) p bd p.rootblock =
      _fill_root_block (some t) p (fun _ => 0) := if_pos rfl
  have hsec : ∀ i, mark_root_block (some t) p bd p.rootblock i = rootByte p t i :=
    fun i => by rw [hfun]; exact fill_root_block_eval p t i
  refine ⟨?_, ?_, ?_, ?_, ?_, ?_, ?_, ?_, ?_, ?_, ?_, ?_, ?_, ?_, ?_, ?_, ?_, ?_⟩
  · intro i hi
    rw [hsec]
    exact rootByte_signature p t i hi
  · rw [hsec]; norm_num [rootByte]
  · rw [hsec]; norm_num [rootByte]
  · rw [hsec]; norm_num [rootByte]
  · rw [hsec]; norm_num [rootByte]
  · rw [hsec]; norm_num [rootByte]
  · rw [hsec]; norm_num [rootByte]
  · rw [hsec]; norm_num [rootByte]
  · rw [hsec]; norm_num [rootByte]
  · simp only [readWordLE, hsec]; norm_num [rootByte]; omega
  · simp only [readWordLE, hsec]; norm_num [rootByte]; omega
  · simp only [readWordLE, hsec]; norm_num [rootByte]; omega
  · simp only [readWordLE, hsec]; norm_num [rootByte]; omega
  · simp only [readWordLE, hsec]; norm_num [rootByte]; omega
  · simp only [readWordLE, hsec]; norm_num [rootByte]; omega
  · simp only [readWordLE, hsec]; norm_num [rootByte]; omega
  · simp only [readWordLE, hsec]; norm_num [rootByte]
  · intro i h16 h512 hts hw
    rw [hsec]
    exact rootByte_unwritten p t i h16 hts hw

/-- Witness for C3 at the `V = 256` geometry, a concrete timestamp
(2026-10-11 12:00:00 UTC) and an all-zero prior device: the signature
byte at offset 5 and the `fatsize` word. -/
theorem c3_root_block_layout_witness :
    mark_root_block (some ⟨126, 9, 11, 12, 0, 0, 6⟩) (geomOf 256) (fun _ _ => 0)
        (geomOf 256).rootblock 5 = 0x55 ∧
    readWordLE (mark_root_block (some ⟨126, 9, 11, 12, 0, 0, 6⟩) (geomOf 256) (fun _ _ => 0)
        (geomOf 256).rootblock) 0x24 = (geomOf 256).fatsize :=
  ⟨(c3_root_block_layout (geomOf 256) ⟨126, 9, 11, 12, 0, 0, 6⟩ (fun _ _ => 0)
      (by decide) (by decide) (by decide) (by decide) (by decide)).1 5 (by decide),
   (c3_root_block_layout (geomOf 256) ⟨126, 9, 11, 12, 0, 0, 6⟩ (fun _ _ => 0)
      (by decide) (by decide) (by decide) (by decide) (by decide)).2.2.2.2.2.2.2.2.2.2.2.2.1⟩

/-- Word-level device state: sector index → 16-bit slot (0..255) → value.
`mark_fat` and the bad-block marker access the device purely through
`uint16_t` buffers, so sectors are modelled as 256-slot word arrays. -/
abbrev Device : Type := Nat → Nat → Nat

/-- One positional 512-byte `pwrite`: replace sector `sec` by buffer `b`. -/
def writeSector (d : Device) (sec : Nat) (b : Nat → Nat) : Device :=
  fun s => if s = sec then b else d s

/-- An all-zero device, used as the concrete initial state. -/
def devZero : Device := fun _ _ => 0

/-- The all-0xFFFC ("free") buffer `mark_fat` starts from (lines 207-208). -/
def freeBuf : Nat → Nat := fun _ => 0xFFFC

/-- One 16-bit slot of the chain loop body of `mark_fat` (lines 223-237):
`bi = (k+i)/2` is the block index the slot represents, `old` the slot's
previous content (kept by the final untouched case).  The back-chain
store is `__cpu_to_le16((k+i)/2 - 1)`, a 16-bit store, so the value kept
on disk is `(bi - 1) mod 2^16`; the 0xFFFA terminators fit as they are. -/
def chainVal (p : vmuparam) (bi old : Nat) : Nat :=
  if 1 + p.fatstart - p.fatsize < bi then (bi - 1) % 65536
  else if bi = 1 + p.fatstart - p.fatsize then 0xFFFA
  else if 1 + p.dirstart - p.dirsize < bi then (bi - 1) % 65536
  else if bi = 1 + p.dirstart - p.dirsize then 0xFFFA
  else old

/-- The buffer after the `mark_fat` inner loop (lines 222-237) has
processed sector `j`: with `k = (j - dirstart - 1) * 512`, slot `i/2`
holds `chainVal` of block `(k + i)/2 = 256*(j - dirstart - 1) + i/2`. -/
def chainStep (p : vmuparam) (j : Nat) (buf : Nat → Nat) : Nat → Nat :=
  fun s => chainVal p (256 * (j - p.dirstart - 1) + s) (buf s)

/-- `start = 2 * (fatsize + dirsize) / BLOCKSIZE + 1` (line 220). -/
def markFatStart (p : vmuparam) : Nat := 2 * (p.fatsize + p.dirsize) / 512 + 1

/-- The `for (j = rootblock - start; j < rootblock; j++)` loop of
`mark_fat` (lines 221-242): iteration `t` (counting from 0) processes
sector `j = rootblock - start + t`, updating the carried buffer and, when
`start > 1`, writing it to sector `j`. -/
def chainLoop (p : vmuparam) (start : Nat) :
    Nat → ((Nat → Nat) × Device) → (Nat → Nat) × Device
  | 0, st => st
  | t + 1, st =>
      let prev := chainLoop p start t st
      let j := p.rootblock - start + t
      let buf := chainStep p j prev.1
      (buf, if 1 < start then writeSector prev.2 j buf else prev.2)

/-- The `if (param->fatsize > 1)` prelude of `mark_fat` (lines 210-217):
the all-0xFFFC buffer is written to sectors `fatstart - 1` down to
`fatstart - fatsize + 1`; `t` counts the writes already issued. -/
def preludeLoop (fatstart : Nat) : Nat → Device → Device
  | 0, d => d
  | t + 1, d => writeSector (preludeLoop fatstart t d) (fatstart - 1 - t) freeBuf

/-- `mark_fat` from mkfs.vmufat.c (lines 195-262) as a device transformer:
prelude fill, chain loop, then the last buffer with slot 255 overwritten by
0xFFFA (line 243) written at sector `j - 1 = rootblock - 1` (lines
244-246, the loop having exited with `j = rootblock`). -/
def mark_fat (p : vmuparam) (d : Device) : Device :=
  let d1 := if 1 < p.fatsize then preludeLoop p.fatstart (p.fatsize - 1) d else d
  let res := chainLoop p (markFatStart p) (markFatStart p) (freeBuf, d1)
  writeSector res.2 (p.rootblock - 1) (fun s => if s = 255 then 0xFFFA else res.1 s)

/-- The FAT cell for block index `b`: 16-bit slot `b % 256` of FAT sector
`(2*b)/512 + dirstart + 1` (the layout `_mark_block_bad` uses at lines
430-434, and the one `mark_fat` populates). -/
def fatCell (p : vmuparam) (d : Device) (b : Nat) : Nat :=
  d (2 * b / 512 + p.dirstart + 1) (b % 256)

/-- The chain-loop buffer after processing sector `j`, in closed form:
every slot holds its `chainVal`, with 0xFFFC in the untouched slots. -/
def bufAt (p : vmuparam) (j : Nat) : Nat → Nat :=
  fun s => chainVal p (256 * (j - p.dirstart - 1) + s) 0xFFFC

/-- Structural facts about a geometry under which the `mark_fat` loop is
analysed: successor relations between the regions, `fatsize ≥ 1`,
256-slot alignment of the FAT (`256·fatsize = rootblock+1`), the loop
count bounded by the FAT length, and the loop reaching down to the sector
holding the directory region's lowest block.  `goodGeom_pow2` below shows
the planner's geometries for `V = 2^k`, `8 ≤ k ≤ 22`, satisfy them. -/
def GoodGeom (p : vmuparam) : Prop :=
  p.rootblock = p.fatstart + 1 ∧
  1 ≤ p.fatsize ∧
  p.fatsize ≤ p.fatstart ∧
  p.dirstart = p.fatstart - p.fatsize ∧
  256 * p.fatsize = p.rootblock + 1 ∧
  p.dirsize ≤ p.dirstart ∧
  1 ≤ p.dirsize ∧
  markFatStart p ≤ p.fatsize ∧
  p.rootblock - markFatStart p ≤ 2 * (1 + p.dirstart - p.dirsize) / 512 + p.dirstart + 1

theorem chainVal_old_indep (p : vmuparam) (bi o1 o2 : Nat)
    (h : 1 + p.dirstart - p.dirsize ≤ bi) : chainVal p bi o1 = chainVal p bi o2 := by
  delta chainVal
  split_ifs <;> first | rfl | omega

theorem chainLoop_buf (p : vmuparam) (hg : GoodGeom p) (d : Device) :
    ∀ t, t + 1 ≤ markFatStart p →
    (chainLoop p (markFatStart p) (t + 1) (freeBuf, d)).1 =
      bufAt p (p.rootblock - markFatStart p + t) := by
  obtain ⟨g1, g2, g3, g4, g5, g6, g6a, g7, g8⟩ := hg
  intro t
  induction t with
  | zero => intro ht; rfl
  | succ t ih =>
    intro ht
    show chainStep p (p.rootblock - markFatStart p + (t + 1))
        (chainLoop p (markFatStart p) (t + 1) (freeBuf, d)).1 = _
    rw [ih (by omega)]
    funext s
    show chainVal p (256 * (p.rootblock - markFatStart p + (t + 1) - p.dirstart - 1) + s)
        (chainVal p (256 * (p.rootblock - markFatStart p + t - p.dirstart - 1) + s) 0xFFFC) =
      chainVal p (256 * (p.rootblock - markFatStart p + (t + 1) - p.dirstart - 1) + s) 0xFFFC
    delta chainVal
    split_ifs <;> first | rfl | omega

theorem chainLoop_dev (p : vmuparam) (hg : GoodGeom p) (d : Device) :
    ∀ t, t ≤ markFatStart p → ∀ sec,
    (chainLoop p (markFatStart p) t (freeBuf, d)).2 sec =
      if 1 < markFatStart p ∧ p.rootblock - markFatStart p ≤ sec ∧
          sec < p.rootblock - markFatStart p + t
      then bufAt p sec else d sec := by
  intro t
  induction t with
  | zero =>
    intro ht sec
    rw [if_neg (by omega)]
    rfl
  | succ t ih =>
    intro ht sec
    by_cases hs : 1 < markFatStart p
    · show (if 1 < markFatStart p then
          writeSector (chainLoop p (markFatStart p) t (freeBuf, d)).2
            (p.rootblock - markFatStart p + t)
            (chainStep p (p.rootblock - markFatStart p + t)
              (chainLoop p (markFatStart p) t (freeBuf, d)).1)
        else (chainLoop p (markFatStart p) t (freeBuf, d)).2) sec = _
      rw [if_pos hs]
      have hbuf : chainStep p (p.rootblock - markFatStart p + t)
          (chainLoop p (markFatStart p) t (freeBuf, d)).1 =
          bufAt p (p.rootblock - markFatStart p + t) :=
        chainLoop_buf p hg d t ht
      rw [hbuf]
      show (if sec = p.rootblock - markFatStart p + t
          then bufAt p (p.rootblock - markFatStart p + t)
          else (chainLoop p (markFatStart p) t (freeBuf, d)).2 sec) = _
      by_cases hsec : sec = p.rootblock - markFatStart p + t
      · rw [if_pos hsec, if_pos ⟨hs, by omega, by omega⟩, hsec]
      · rw [if_neg hsec, ih (by omega) sec]
        split_ifs <;> first | rfl | omega
    · show (if 1 < markFatStart p then
          writeSector (chainLoop p (markFatStart p) t (freeBuf, d)).2
            (p.rootblock - markFatStart p + t)
            (chainStep p (p.rootblock - markFatStart p + t)
              (chainLoop p (markFatStart p) t (freeBuf, d)).1)
        else (chainLoop p (markFatStart p) t (freeBuf, d)).2) sec = _
      rw [if_neg hs, ih (by omega) sec]
      split_ifs <;> first | rfl | omega

theorem mark_fat_cell (p : vmuparam) (hg : GoodGeom p) (d : Device) (b : Nat)
    (hb1 : 1 + p.dirstart - p.dirsize ≤ b) (hb2 : b ≤ p.rootblock) :
    fatCell p (mark_fat p d) b =
      if b = p.rootblock then 0xFFFA else chainVal p b 0 := by
  obtain ⟨g1, g2, g3, g4, g5, g6, g6a, g7, g8⟩ := hg
  have hstart1 : 1 ≤ markFatStart p := Nat.le_add_left 1 _
  have hsb_le : 2 * b / 512 + p.dirstart + 1 ≤ p.fatstart := by omega
  have hsb_ge : p.rootblock - markFatStart p ≤ 2 * b / 512 + p.dirstart + 1 := by omega
  show writeSector
      (chainLoop p (markFatStart p) (markFatStart p)
        (freeBuf, if 1 < p.fatsize then preludeLoop p.fatstart (p.fatsize - 1) d else d)).2
      (p.rootblock - 1)
      (fun s => if s = 255 then 0xFFFA
        else (chainLoop p (markFatStart p) (markFatStart p)
          (freeBuf, if 1 < p.fatsize then preludeLoop p.fatstart (p.fatsize - 1) d else d)).1 s)
      (2 * b / 512 + p.dirstart + 1) (b % 256) = _
  rw [writeSector]
  by_cases hF : 2 * b / 512 + p.dirstart + 1 = p.rootblock - 1
  · rw [if_pos hF]
    have hres1 : (chainLoop p (markFatStart p) (markFatStart p)
        (freeBuf, if 1 < p.fatsize then preludeLoop p.fatstart (p.fatsize - 1) d else d)).1 =
        bufAt p (p.rootblock - 1) := by
      have hidx : markFatStart p - 1 + 1 = markFatStart p := by omega
      have h := chainLoop_buf p ⟨g1, g2, g3, g4, g5, g6, g6a, g7, g8⟩
        (if 1 < p.fatsize then preludeLoop p.fatstart (p.fatsize - 1) d else d)
        (markFatStart p - 1) (by omega)
      rw [hidx] at h
      have hidx2 : p.rootblock - markFatStart p + (markFatStart p - 1) = p.rootblock - 1 := by
        omega
      rw [hidx2] at h
      exact h
    by_cases hbR : b = p.rootblock
    · show (if b % 256 = 255 then 0xFFFA else _) = _
      rw [if_pos (by omega : b % 256 = 255), if_pos hbR]
    · show (if b % 256 = 255 then 0xFFFA
          else (chainLoop p (markFatStart p) (markFatStart p)
            (freeBuf, if 1 < p.fatsize then preludeLoop p.fatstart (p.fatsize - 1) d else d)).1
              (b % 256)) = _
      rw [if_neg (by omega : ¬ b % 256 = 255), hres1, if_neg hbR]
      show chainVal p (256 * (p.rootblock - 1 - p.dirstart - 1) + b % 256) 0xFFFC =
        chainVal p b 0
      rw [(by omega : 256 * (p.rootblock - 1 - p.dirstart - 1) + b % 256 = b)]
      exact chainVal_old_indep p b 0xFFFC 0 hb1
  · rw [if_neg hF]
    have hlt : 2 * b / 512 + p.dirstart + 1 < p.rootblock - 1 := by omega
    have hbR : b ≠ p.rootblock := by omega
    have hstart2 : 1 < markFatStart p := by omega
    rw [chainLoop_dev p ⟨g1, g2, g3, g4, g5, g6, g6a, g7, g8⟩ _ (markFatStart p) le_rfl
      (2 * b / 512 + p.dirstart + 1)]
    rw [if_pos ⟨hstart2, hsb_ge, by omega⟩, if_neg hbR]
    show chainVal p (256 * (2 * b / 512 + p.dirstart + 1 - p.dirstart - 1) + b % 256) 0xFFFC =
      chainVal p b 0
    rw [(by omega : 256 * (2 * b / 512 + p.dirstart + 1 - p.dirstart - 1) + b % 256 = b)]
    exact chainVal_old_indep p b 0xFFFC 0 hb1

theorem calc_pow2_eq : ∀ k : Nat, 2 ≤ k → k ≤ 22 →
    calculate_vmuparams ((2 ^ k : Int) * 512) 0 = some (geomOf (2 ^ k)) := by
  intro k h1 h2
  interval_cases k <;> decide

theorem goodGeom_pow2 : ∀ k : Nat, 8 ≤ k → k ≤ 22 → GoodGeom (geomOf (2 ^ k)) := by
  intro k h1 h2
  unfold GoodGeom
  interval_cases k <;> decide

theorem mark_fat_chain (p : vmuparam) (hg : GoodGeom p) (d : Device) :
    (∀ b, 1 + p.fatstart - p.fatsize < b → b ≤ p.fatstart →
      fatCell p (mark_fat p d) b = (b - 1) % 65536) ∧
    fatCell p (mark_fat p d) (1 + p.fatstart - p.fatsize) = 0xFFFA ∧
    (∀ b, 1 + p.dirstart - p.dirsize < b → b ≤ p.dirstart →
      fatCell p (mark_fat p d) b = (b - 1) % 65536) ∧
    fatCell p (mark_fat p d) (1 + p.dirstart - p.dirsize) = 0xFFFA := by
  have hg' := hg
  obtain ⟨g1, g2, g3, g4, g5, g6, g6a, g7, g8⟩ := hg
  refine ⟨?_, ?_, ?_, ?_⟩
  · intro b hbl hbu
    rw [mark_fat_cell p hg' d b (by omega) (by omega), if_neg (by omega)]
    delta chainVal
    rw [if_pos hbl]
  · rw [mark_fat_cell p hg' d _ (by omega) (by omega), if_neg (by omega)]
    delta chainVal
    rw [if_neg (by omega), if_pos rfl]
  · intro b hbl hbu
    rw [mark_fat_cell p hg' d b (by omega) (by omega), if_neg (by omega)]
    delta chainVal
    rw [if_neg (by omega), if_neg (by omega), if_pos hbl]
  · rw [mark_fat_cell p hg' d _ (by omega) (by omega), if_neg (by omega)]
    delta chainVal
    rw [if_neg (by omega), if_neg (by omega), if_neg (by omega), if_pos rfl]

/-- Claim C4 (amended): after `mark_fat` on a clean format (planner
geometry for `V = 2^k`, `8 ≤ k ≤ 22`, any prior device content), the FAT
cells form a back-chain modulo the 16-bit cell width over the half-open
interval `(fatstart − fatsize + 1, fatstart]` — cell at `bi` equals
`(bi − 1) mod 2^16` — and the cell at `fatstart − fatsize + 1` (the
region's lowest block) equals 0xFFFA; symmetrically the directory
back-chain runs over `(dirstart − dirsize + 1, dirstart]` with 0xFFFA at
`dirstart − dirsize + 1`.  Two corrections are forced: the claim as
stated extends the `bi − 1` rule to the whole of
`(fatstart − fatsize, fatstart]`, contradicting the 0xFFFA terminator at
its lowest point, and the chain store `__cpu_to_le16((k+i)/2 - 1)` is a
16-bit store, so for block indices above 2^16 (formats `V ≥ 2^17`) the
cell holds the wrapped value, not `bi − 1`.  See the counterexample for
both failure modes. -/
theorem c4_back_chain : ∀ (k : Nat) (d : Device), 8 ≤ k → k ≤ 22 →
    ∀ p, calculate_vmuparams ((2 ^ k : Int) * 512) 0 = some p →
    (∀ b, 1 + p.fatstart - p.fatsize < b → b ≤ p.fatstart →
      fatCell p (mark_fat p d) b = (b - 1) % 65536) ∧
    fatCell p (mark_fat p d) (1 + p.fatstart - p.fatsize) = 0xFFFA ∧
    (∀ b, 1 + p.dirstart - p.dirsize < b → b ≤ p.dirstart →
      fatCell p (mark_fat p d) b = (b - 1) % 65536) ∧
    fatCell p (mark_fat p d) (1 + p.dirstart - p.dirsize) = 0xFFFA := by
  intro k d h8 h22 p hp
  have hpe : p = geomOf (2 ^ k) := by
    have h := calc_pow2_eq k (by omega) h22
    rw [hp] at h
    exact Option.some.inj h
  subst hpe
  exact mark_fat_chain (geomOf (2 ^ k)) (goodGeom_pow2 k h8 h22) d

/-- Witness for C4's amended theorem: at `V = 1024` (all cells below
2^16, so the chain reads plainly) a FAT-region chain cell, a
directory-region chain cell and the directory terminator; and at
`V = 2^17` a chain cell whose stored value has wrapped modulo 2^16. -/
theorem c4_back_chain_witness :
    fatCell (geomOf 1024) (mark_fat (geomOf 1024) devZero) 1021 = 1020 ∧
    fatCell (geomOf 1024) (mark_fat (geomOf 1024) devZero) 961 = 960 ∧
    fatCell (geomOf 1024) (mark_fat (geomOf 1024) devZero) 960 = 0xFFFA ∧
    fatCell (geomOf 131072) (mark_fat (geomOf 131072) devZero) 131070 = 65533 :=
  ⟨(c4_back_chain 10 devZero (by decide) (by decide) (geomOf 1024) (by decide)).1
      1021 (by decide) (by decide),
   (c4_back_chain 10 devZero (by decide) (by decide) (geomOf 1024) (by decide)).2.2.1
      961 (by decide) (by decide),
   (c4_back_chain 10 devZero (by decide) (by decide) (geomOf 1024) (by decide)).2.2.2,
   (c4_back_chain 17 devZero (by decide) (by decide) (geomOf 131072) (by decide)).1
      131070 (by decide) (by decide)⟩

/-- Counterexample to claim C4 as stated, in both failure modes.  First,
on the clean `V = 1024` format, block 1019 lies in the claim's back-chain
interval `(fatstart − fatsize, fatstart] = (1018, 1022]`, so the claim
requires its cell to be `1019 − 1 = 1018`; but 1019 is the FAT region's
lowest block and the code stores the 0xFFFA terminator there — the
claim's two sentences contradict each other at this block.  Second, on
the clean `V = 2^17` format, block 131070 lies strictly inside the FAT
back-chain, yet its cell reads `131069 mod 2^16 = 65533`, not
`131069`: the C store is `__cpu_to_le16(...)`, 16 bits wide. -/
theorem c4_counterexample :
    calculate_vmuparams 524288 0 = some (geomOf 1024) ∧
    (geomOf 1024).fatstart - (geomOf 1024).fatsize < 1019 ∧
    1019 ≤ (geomOf 1024).fatstart ∧
    fatCell (geomOf 1024) (mark_fat (geomOf 1024) devZero) 1019 = 0xFFFA ∧
    (0xFFFA : Nat) ≠ 1019 - 1 ∧
    calculate_vmuparams 67108864 0 = some (geomOf 131072) ∧
    (geomOf 131072).fatstart - (geomOf 131072).fatsize < 131070 ∧
    131070 ≤ (geomOf 131072).fatstart ∧
    fatCell (geomOf 131072) (mark_fat (geomOf 131072) devZero) 131070 = 65533 ∧
    (65533 : Nat) ≠ 131070 - 1 :=
  ⟨by decide, by decide, by decide, by decide, by decide,
   by decide, by decide, by decide, by decide, by decide⟩

/-- Claim C5: after `mark_fat` on a clean format, the FAT cell at block
index `rootblock` equals 0xFFFA: slot 255 of the final FAT buffer is
overwritten with 0xFFFA and that buffer lands on the physically last FAT
sector, at sector index `fatstart` (the device read at sector `fatstart`,
slot 255, is exactly the cell of block `rootblock`). -/
theorem c5_root_terminator : ∀ (k : Nat) (d : Device), 8 ≤ k → k ≤ 22 →
    ∀ p, calculate_vmuparams ((2 ^ k : Int) * 512) 0 = some p →
    fatCell p (mark_fat p d) p.rootblock = 0xFFFA ∧
    mark_fat p d p.fatstart 255 = 0xFFFA := by
  intro k d h8 h22 p hp
  have hpe : p = geomOf (2 ^ k) := by
    have h := calc_pow2_eq k (by omega) h22
    rw [hp] at h
    exact Option.some.inj h
  subst hpe
  have hg := goodGeom_pow2 k h8 h22
  obtain ⟨g1, g2, g3, g4, g5, g6, g6a, g7, g8⟩ := hg
  have hcell : fatCell (geomOf (2 ^ k)) (mark_fat (geomOf (2 ^ k)) d)
      (geomOf (2 ^ k)).rootblock = 0xFFFA := by
    rw [mark_fat_cell (geomOf (2 ^ k)) ⟨g1, g2, g3, g4, g5, g6, g6a, g7, g8⟩ d
      (geomOf (2 ^ k)).rootblock (by omega) le_rfl, if_pos rfl]
  refine ⟨hcell, ?_⟩
  rw [show (geomOf (2 ^ k)).fatstart =
        2 * (geomOf (2 ^ k)).rootblock / 512 + (geomOf (2 ^ k)).dirstart + 1 by omega,
      show (255 : Nat) = (geomOf (2 ^ k)).rootblock % 256 by omega]
  exact hcell

/-- Witness for C5 at `V = 256` on an all-zero device. -/
theorem c5_root_terminator_witness :
    fatCell (geomOf 256) (mark_fat (geomOf 256) devZero) (geomOf 256).rootblock = 0xFFFA ∧
    mark_fat (geomOf 256) devZero (geomOf 256).fatstart 255 = 0xFFFA :=
  c5_root_terminator 8 devZero (by decide) (by decide) (geomOf 256) (by decide)

/-- `_mark_block_bad` from mkfs.vmufat.c (lines 417-444): read the FAT
sector `fatblock = (2*badblock)/BLOCKSIZE + dirstart + 1`, overwrite the
16-bit word at slot `badblock % (BLOCKSIZE/2)` with 0xFFFA, write it
back.  (I/O succeeds in the model; failures abort the format and are
handled by the pipeline model.) -/
def _mark_block_bad (p : vmuparam) (badblock : Nat) (d : Device) : Device :=
  let fatblock := 2 * badblock / 512 + p.dirstart + 1
  writeSector d fatblock
    (fun s => if s = badblock % 256 then 0xFFFA else d fatblock s)

/-- `mark_bad_blocks` from mkfs.vmufat.c (lines 446-484) over the
bad-block list (C `int` entries): entries `< 0` or `> rootblock` are
skipped; an entry in `[dirstart, rootblock]` aborts (the Bool is `false`,
no further entries are processed); otherwise `_mark_block_bad` runs and
the walk continues.  The returned device is the state reached when the
walk stops, writes so far retained. -/
def mark_bad_blocks (p : vmuparam) : List Int → Device → Bool × Device
  | [], d => (true, d)
  | b :: rest, d =>
      if b < 0 ∨ (p.rootblock : Int) < b then mark_bad_blocks p rest d
      else if (p.dirstart : Int) ≤ b ∧ b ≤ (p.rootblock : Int) then (false, d)
      else mark_bad_blocks p rest (_mark_block_bad p b.toNat d)

theorem fatCell_mark_self (p : vmuparam) (b : Nat) (d : Device) :
    fatCell p (_mark_block_bad p b d) b = 0xFFFA := by
  show (if 2 * b / 512 + p.dirstart + 1 = 2 * b / 512 + p.dirstart + 1
      then (fun s => if s = b % 256 then 0xFFFA else d (2 * b / 512 + p.dirstart + 1) s)
      else d (2 * b / 512 + p.dirstart + 1)) (b % 256) = 0xFFFA
  rw [if_pos rfl]
  show (if b % 256 = b % 256 then 0xFFFA else _) = 0xFFFA
  rw [if_pos rfl]

theorem fatCell_mark_other (p : vmuparam) (b c : Nat) (d : Device) (h : c ≠ b) :
    fatCell p (_mark_block_bad p b d) c = fatCell p d c := by
  show (if 2 * c / 512 + p.dirstart + 1 = 2 * b / 512 + p.dirstart + 1
      then (fun s => if s = b % 256 then 0xFFFA else d (2 * b / 512 + p.dirstart + 1) s)
      else d (2 * c / 512 + p.dirstart + 1)) (c % 256) = fatCell p d c
  by_cases hsec : 2 * c / 512 + p.dirstart + 1 = 2 * b / 512 + p.dirstart + 1
  · rw [if_pos hsec]
    show (if c % 256 = b % 256 then 0xFFFA else d (2 * b / 512 + p.dirstart + 1) (c % 256)) =
      fatCell p d c
    rw [if_neg (by omega), fatCell, hsec]
  · rw [if_neg hsec]
    rfl

/-- Claim C6: `mark_bad_blocks` silently skips every entry `b` with
`b < 0` or `b > rootblock` (the walk continues on the rest with the
device untouched), and returns failure at an entry with
`dirstart ≤ b ≤ rootblock`, processing no further entries and leaving the
device as it was. -/
theorem c6_guards : ∀ (p : vmuparam) (b : Int) (rest : List Int) (d : Device),
    ((b < 0 ∨ (p.rootblock : Int) < b) →
      mark_bad_blocks p (b :: rest) d = mark_bad_blocks p rest d) ∧
    ((p.dirstart : Int) ≤ b → b ≤ (p.rootblock : Int) →
      mark_bad_blocks p (b :: rest) d = (false, d)) := by
  intro p b rest d
  constructor
  · intro h
    show (if b < 0 ∨ (p.rootblock : Int) < b then mark_bad_blocks p rest d else _) = _
    rw [if_pos h]
  · intro h1 h2
    show (if b < 0 ∨ (p.rootblock : Int) < b then mark_bad_blocks p rest d else _) = _
    rw [if_neg (by omega), if_pos ⟨h1, h2⟩]

/-- Witness for C6 at the `V = 256` geometry: entry `-1` is skipped (the
run on `[-1]` equals the empty run, succeeding with the device intact) and
entry `254 ∈ [dirstart, rootblock] = [253, 255]` aborts. -/
theorem c6_guards_witness :
    mark_bad_blocks (geomOf 256) [(-1 : Int)] devZero = (true, devZero) ∧
    mark_bad_blocks (geomOf 256) [(254 : Int)] devZero = (false, devZero) :=
  ⟨((c6_guards (geomOf 256) (-1) [] devZero).1 (Or.inl (by decide))).trans rfl,
   (c6_guards (geomOf 256) 254 [] devZero).2 (by decide) (by decide)⟩

/-- Claim C7: if every entry of the bad-block list lies in the user area
(`0 ≤ b < dirstart − dirsize`), `mark_bad_blocks` succeeds, the FAT cell
of every listed block reads 0xFFFA afterwards, and every other FAT cell is
unchanged: each `_mark_block_bad` touches only slot `b mod 256` of sector
`(2b)/512 + dirstart + 1`, reading and writing the sector back.
Duplicates are tolerated (re-marking stores 0xFFFA again). -/
theorem c7_user_area_marking : ∀ (p : vmuparam) (l : List Int) (d : Device),
    p.dirstart ≤ p.rootblock →
    (∀ b ∈ l, 0 ≤ b ∧ b < (p.dirstart : Int) - (p.dirsize : Int)) →
    (mark_bad_blocks p l d).1 = true ∧
    ∀ c : Nat, fatCell p (mark_bad_blocks p l d).2 c =
      if ∃ b ∈ l, (c : Int) = b then 0xFFFA else fatCell p d c := by
  intro p l
  induction l with
  | nil =>
    intro d hDR hl
    refine ⟨rfl, fun c => ?_⟩
    rw [if_neg (by simp)]
    rfl
  | cons b rest ih =>
    intro d hDR hl
    obtain ⟨hb0, hbu⟩ := hl b (List.mem_cons_self b rest)
    have hskip : ¬(b < 0 ∨ (p.rootblock : Int) < b) := by omega
    have hguard : ¬((p.dirstart : Int) ≤ b ∧ b ≤ (p.rootblock : Int)) := by omega
    have hstep : mark_bad_blocks p (b :: rest) d =
        mark_bad_blocks p rest (_mark_block_bad p b.toNat d) := by
      show (if b < 0 ∨ (p.rootblock : Int) < b then mark_bad_blocks p rest d else _) = _
      rw [if_neg hskip, if_neg hguard]
    rw [hstep]
    have hrest := ih (_mark_block_bad p b.toNat d) hDR
      (fun x hx => hl x (List.mem_cons_of_mem b hx))
    refine ⟨hrest.1, fun c => ?_⟩
    rw [hrest.2 c]
    by_cases hc : (c : Int) = b
    · have hcb : c = b.toNat := by omega
      by_cases hcrest : ∃ x ∈ rest, (c : Int) = x
      · rw [if_pos hcrest, if_pos ⟨b, List.mem_cons_self b rest, hc⟩]
      · rw [if_neg hcrest, if_pos ⟨b, List.mem_cons_self b rest, hc⟩, hcb]
        exact fatCell_mark_self p b.toNat d
    · have hne : c ≠ b.toNat := by omega
      rw [fatCell_mark_other p b.toNat c d hne]
      by_cases hcrest : ∃ x ∈ rest, (c : Int) = x
      · have hccons : ∃ x ∈ b :: rest, (c : Int) = x := by
          obtain ⟨x, hx, hcx⟩ := hcrest
          exact ⟨x, List.mem_cons_of_mem b hx, hcx⟩
        rw [if_pos hcrest, if_pos hccons]
      · have hccons : ¬ ∃ x ∈ b :: rest, (c : Int) = x := by
          rintro ⟨x, hx, hcx⟩
          rcases List.mem_cons.mp hx with rfl | hx2
          · exact hc hcx
          · exact hcrest ⟨x, hx2, hcx⟩
        rw [if_neg hcrest, if_neg hccons]

/-- Witness for C7 at the `V = 256` geometry with the spec's S6 list
`{10, 20, 20}` (all below `dirstart − dirsize = 239`), on an all-zero
device. -/
theorem c7_user_area_marking_witness :
    (mark_bad_blocks (geomOf 256) [10, 20, 20] devZero).1 = true ∧
    ∀ c : Nat, fatCell (geomOf 256) (mark_bad_blocks (geomOf 256) [10, 20, 20] devZero).2 c =
      if ∃ b ∈ [(10 : Int), 20, 20], (c : Int) = b then 0xFFFA
      else fatCell (geomOf 256) devZero c :=
  c7_user_area_marking (geomOf 256) [10, 20, 20] devZero (by decide) (by decide)

/-- Claim C10: an entry strictly inside the directory region but below
`dirstart` (`dirstart − dirsize < b < dirstart`, `b ≥ 0`) is NOT caught by
the system-region guard, which only covers `[dirstart, rootblock]`:
`mark_bad_blocks` proceeds to `_mark_block_bad`, which overwrites that
directory block's FAT back-chain cell with 0xFFFA.  (The witness shows the
cell held `b − 1` after the clean `V = 1024` format and 0xFFFA after the
marking, i.e. the chain of claim C4 is broken.) -/
theorem c10_directory_marking : ∀ (p : vmuparam) (b : Int) (rest : List Int) (d : Device),
    0 ≤ b → (p.dirstart : Int) - (p.dirsize : Int) < b → b < (p.dirstart : Int) →
    p.dirstart ≤ p.rootblock →
    mark_bad_blocks p (b :: rest) d =
      mark_bad_blocks p rest (_mark_block_bad p b.toNat d) ∧
    fatCell p (_mark_block_bad p b.toNat d) b.toNat = 0xFFFA := by
  intro p b rest d h0 hl hu hDR
  refine ⟨?_, fatCell_mark_self p b.toNat d⟩
  show (if b < 0 ∨ (p.rootblock : Int) < b then mark_bad_blocks p rest d else _) = _
  rw [if_neg (by omega), if_neg (by omega)]

/-- Witness for C10: block 1000 of the `V = 1024` geometry lies in
`(959, 1018)`; on the cleanly formatted device its cell reads 999
(back-chain), the marker is not stopped, and afterwards the cell reads
0xFFFA. -/
theorem c10_directory_marking_witness :
    mark_bad_blocks (geomOf 1024) [1000] (mark_fat (geomOf 1024) devZero) =
      mark_bad_blocks (geomOf 1024) []
        (_mark_block_bad (geomOf 1024) (1000 : Int).toNat (mark_fat (geomOf 1024) devZero)) ∧
    fatCell (geomOf 1024) (_mark_block_bad (geomOf 1024) (1000 : Int).toNat
        (mark_fat (geomOf 1024) devZero)) (1000 : Int).toNat = 0xFFFA ∧
    fatCell (geomOf 1024) (mark_fat (geomOf 1024) devZero) 1000 = 999 :=
  ⟨(c10_directory_marking (geomOf 1024) 1000 [] (mark_fat (geomOf 1024) devZero)
      (by decide) (by decide) (by decide) (by decide)).1,
   (c10_directory_marking (geomOf 1024) 1000 [] (mark_fat (geomOf 1024) devZero)
      (by decide) (by decide) (by decide) (by decide)).2,
   by decide⟩

/-- The word-level view of the root-block image `mark_root_block` writes
(for the C8 pipeline, which is modelled on the word-level device): word
`s` packs octets `2s` and `2s+1` of the `_fill_root_block` buffer,
little-endian. -/
def rootImageWords (t? : Option Tm) (p : vmuparam) : Nat → Nat :=
  fun s => _fill_root_block t? p (fun _ => 0) (2 * s) +
    256 * _fill_root_block t? p (fun _ => 0) (2 * s + 1)

/-- The loop of `zero_blocks` (mkfs.vmufat.c lines 343-369): `i` writes of
an all-zero sector, at sectors `0 .. i-1`. -/
def zeroLoop : Nat → Device → Device
  | 0, d => d
  | i + 1, d => writeSector (zeroLoop i d) i (fun _ => 0)

/-- `zero_blocks`: zero sectors `0 .. dirstart` inclusive. -/
def zero_blocks (p : vmuparam) (d : Device) : Device := zeroLoop (p.dirstart + 1) d

/-- Which step of `main`'s format pipeline failed (each has a distinct
diagnostic printf in the source). -/
inductive FormatStep
  | collect
  | plan
  | root
  | fat
  | zero
  | badmarks
deriving DecidableEq

/-- The format pipeline of `main` (mkfs.vmufat.c lines 559-592), in the
source's order: collect bad blocks (when `-c`/`-l` was given; `collected =
none` models the collection itself failing, `some l` the list delivered —
`some []` when no collection was requested), then plan geometry, then
write the root block, then the FAT, then zero the user area, then apply
bad-block marks.  `rootOk`/`fatOk`/`zeroOk` model I/O failure of the
respective write step (a failing step leaves its own writes unmodelled and
aborts the remainder; nothing is rolled back).  The result carries the
failed step, if any, and the device state reached. -/
def mainFormat (collected : Option (List Int)) (devSize blocknum : Int) (t? : Option Tm)
    (rootOk fatOk zeroOk : Bool) (d : Device) : Option FormatStep × Device :=
  match collected with
  | none => (some FormatStep.collect, d)
  | some badlist =>
    match calculate_vmuparams devSize blocknum with
    | none => (some FormatStep.plan, d)
    | some p =>
      if rootOk = false then (some FormatStep.root, d) else
      let d1 := writeSector d p.rootblock (rootImageWords t? p)
      if fatOk = false then (some FormatStep.fat, d1) else
      let d2 := mark_fat p d1
      if zeroOk = false then (some FormatStep.zero, d2) else
      let d3 := zero_blocks p d2
      let pr := mark_bad_blocks p badlist d3
      (if pr.1 = true then none else some FormatStep.badmarks, pr.2)

/-- Claim C8 (amended): the pipeline's order is collect bad blocks first,
THEN plan geometry, then root block, then FAT, then zero the user area,
then bad-block marks; any failing step aborts all remaining steps and no
already-issued write is rolled back (on a failure at step k the resulting
device is exactly the composition of the steps before k).  The claim as
stated puts planning before collection; the counterexample shows the code
runs collection first. -/
theorem c8_pipeline_order :
    ∀ (collected : Option (List Int)) (devSize blocknum : Int) (t? : Option Tm)
      (rootOk fatOk zeroOk : Bool) (d : Device),
    (collected = none →
      mainFormat collected devSize blocknum t? rootOk fatOk zeroOk d =
        (some FormatStep.collect, d)) ∧
    (∀ l, collected = some l → calculate_vmuparams devSize blocknum = none →
      mainFormat collected devSize blocknum t? rootOk fatOk zeroOk d =
        (some FormatStep.plan, d)) ∧
    (∀ l p, collected = some l → calculate_vmuparams devSize blocknum = some p →
      rootOk = false →
      mainFormat collected devSize blocknum t? rootOk fatOk zeroOk d =
        (some FormatStep.root, d)) ∧
    (∀ l p, collected = some l → calculate_vmuparams devSize blocknum = some p →
      rootOk = true → fatOk = false →
      mainFormat collected devSize blocknum t? rootOk fatOk zeroOk d =
        (some FormatStep.fat, writeSector d p.rootblock (rootImageWords t? p))) ∧
    (∀ l p, collected = some l → calculate_vmuparams devSize blocknum = some p →
      rootOk = true → fatOk = true → zeroOk = false →
      mainFormat collected devSize blocknum t? rootOk fatOk zeroOk d =
        (some FormatStep.zero,
          mark_fat p (writeSector d p.rootblock (rootImageWords t? p)))) ∧
    (∀ l p, collected = some l → calculate_vmuparams devSize blocknum = some p →
      rootOk = true → fatOk = true → zeroOk = true →
      mainFormat collected devSize blocknum t? rootOk fatOk zeroOk d =
        (if (mark_bad_blocks p l (zero_blocks p (mark_fat p
              (writeSector d p.rootblock (rootImageWords t? p))))).1 = true
         then none else some FormatStep.badmarks,
         (mark_bad_blocks p l (zero_blocks p (mark_fat p
           (writeSector d p.rootblock (rootImageWords t? p))))).2)) := by
  intro collected devSize blocknum t? rootOk fatOk zeroOk d
  refine ⟨?_, ?_, ?_, ?_, ?_, ?_⟩
  · rintro rfl
    rfl
  · rintro l rfl hcalc
    simp [mainFormat, hcalc]
  · rintro l p rfl hcalc rfl
    simp [mainFormat, hcalc]
  · rintro l p rfl hcalc rfl rfl
    simp [mainFormat, hcalc]
  · rintro l p rfl hcalc rfl rfl rfl
    simp [mainFormat, hcalc]
  · rintro l p rfl hcalc rfl rfl rfl
    simp [mainFormat, hcalc]

/-- Counterexample to claim C8 as stated: with a failing bad-block
collection on a device that is also too small (1500 octets), the claimed
order "plan geometry, then collect bad blocks" would abort in the planner;
the code aborts in the collection step, which it runs first (main lines
559-566 precede the `calculate_vmuparams` call at line 568). -/
theorem c8_counterexample :
    calculate_vmuparams 1500 0 = none ∧
    mainFormat none 1500 0 none true true true devZero =
      (some FormatStep.collect, devZero) ∧
    FormatStep.collect ≠ FormatStep.plan :=
  ⟨by decide, rfl, by decide⟩

/-- Witness for C8's amended theorem: the all-steps-succeed case at the
`V = 256` geometry with an empty bad-block list, giving the full
composition. -/
theorem c8_pipeline_order_witness :
    mainFormat (some []) 131072 0 none true true true devZero =
      (if (mark_bad_blocks (geomOf 256) []
            (zero_blocks (geomOf 256) (mark_fat (geomOf 256)
              (writeSector devZero (geomOf 256).rootblock
                (rootImageWords none (geomOf 256)))))).1 = true
       then none else some FormatStep.badmarks,
       (mark_bad_blocks (geomOf 256) []
         (zero_blocks (geomOf 256) (mark_fat (geomOf 256)
           (writeSector devZero (geomOf 256).rootblock
             (rootImageWords none (geomOf 256)))))).2) :=
  (c8_pipeline_order (some []) 131072 0 none true true true devZero).2.2.2.2.2
    [] (geomOf 256) rfl (by decide) rfl rfl rfl
